import Mathlib

/-!
Verification of the `wikiseriesricardocli` command-line utility
(`wikiseriesricardocli/wikiseriesricardocli.py`).

The program resolves a TV series name to its Wikipedia "List of episodes"
page via the OpenSearch API, fetches the page, and scrapes season labels
and episode titles out of specific HTML tables (`search_series`), plus a
logging-setup routine (`setup_logging`).

The development shallowly embeds the program:
  * HTML documents are rose trees (`Node`); `Node.findAll` models
    BeautifulSoup's `find_all(tag, class_=cls)` (matching descendants in
    document order) and `Node.textContent` models `.text` (concatenated
    descendant text).
  * `pySplit` models Python's `str.split` with a one-character separator.
  * `pyDict` models building a Python dict from a sequence of key/value
    pairs (insertion order, later values overwrite earlier ones in place).
  * Fallible operations (indexing, attribute access on a missing element)
    return `Option`; a `none` result models an uncaught Python exception.
  * HTTP traffic is passed in explicitly: the search response as a JSON
    value and the page fetch as a function from URL to parsed document.
-/

/-- A parsed HTML node: an element with a tag name, a list of CSS classes
and children, or a text node. -/
inductive Node where
  | elem : String → List String → List Node → Node
  | text : String → Node

mutual

/-- BeautifulSoup's `.text`: the concatenation of all descendant text,
in document order. -/
def Node.textContent : Node → String
  | .text s => s
  | .elem _ _ ch => nodesText ch

/-- Concatenated text of a list of sibling nodes. -/
def nodesText : List Node → String
  | [] => ""
  | n :: rest => n.textContent ++ nodesText rest

end

mutual

/-- BeautifulSoup's `find_all(tag, class_=cls)`: all strict descendants
whose tag equals `tag` and whose class list contains `cls`, in document
(preorder) order. -/
def Node.findAll (tag cls : String) : Node → List Node
  | .text _ => []
  | .elem _ _ ch => findAllIn tag cls ch

/-- `find_all` over a list of sibling subtrees, in document order. -/
def findAllIn (tag cls : String) : List Node → List Node
  | [] => []
  | n :: rest =>
      (match n with
       | .elem t c _ => if t = tag ∧ cls ∈ c then [n] else []
       | .text _ => []) ++ Node.findAll tag cls n ++ findAllIn tag cls rest

end

/-- BeautifulSoup's `find(tag, class_=cls)`: the first matching descendant,
`none` when there is none (Python's `None`). -/
def Node.findFirst (tag cls : String) (n : Node) : Option Node :=
  (n.findAll tag cls).head?

/-- The double-quote character `"`. -/
def quoteChar : Char := Char.ofNat 34

/-- The double-quote character as a one-character string. -/
def dq : String := String.mk [quoteChar]

/-- Python's `s.split(sep)` for a one-character separator `sep`: split at
every occurrence, keeping empty segments; `ds.split(sep)` on a string
without the separator yields the one-element list `[s]`. -/
def pySplit (sep : Char) : List Char → List (List Char)
  | [] => [[]]
  | c :: rest =>
    if c = sep then [] :: pySplit sep rest
    else
      match pySplit sep rest with
      | [] => [[c]]
      | h :: t => (c :: h) :: t

/-- `entry.text.split('"')[1]` for a summary cell: split the cell's text
on the double quote and take the segment at index 1. `none` models the
`IndexError` raised when the segment does not exist. -/
def extractTitle (cell : Node) : Option String :=
  ((pySplit quoteChar cell.textContent.toList)[1]?).map String.mk

/-- A list comprehension whose body may raise: evaluates `f` on each
element in order, `none` (exception) as soon as one element fails. -/
def traverseOpt (f : α → Option β) : List α → Option (List β)
  | [] => some []
  | a :: rest =>
    match f a, traverseOpt f rest with
    | some b, some bs => some (b :: bs)
    | _, _ => none

/-- Inserting one key/value pair into a Python dict represented as an
association list: an existing key keeps its position and gets the new
value, a new key is appended. -/
def pyDictInsert (d : List (String × α)) (k : String) (v : α) :
    List (String × α) :=
  if d.any (fun p => p.1 = k) then
    d.map (fun p => if p.1 = k then (k, v) else p)
  else d ++ [(k, v)]

/-- Building a Python dict from a sequence of key/value pairs, as a dict
comprehension does: left-to-right insertion. -/
def pyDict (l : List (String × α)) : List (String × α) :=
  l.foldl (fun d p => pyDictInsert d p.1 p.2) []

/-- A JSON value, as far as the program inspects one: the OpenSearch
response is an array of strings and arrays. -/
inductive JVal where
  | str : String → JVal
  | arr : List JVal → JVal

/-- A value in the `params` dict of the search request: the program mixes
strings and the integer `10`. -/
inductive PVal where
  | str : String → PVal
  | nat : Nat → PVal
deriving DecidableEq

/-- The HTTP GET request `search_series` sends to the OpenSearch API:
URL, query parameters, timeout in seconds. -/
structure SearchRequest where
  apiUrl : String
  params : List (String × PVal)
  timeout : Nat
deriving DecidableEq

/-- `term = f'List_of_{name}_episodes'`. -/
def searchTerm (name : String) : String :=
  "List_of_" ++ name ++ "_episodes"

/-- The request built at the top of `search_series`: API URL, the
`parameters` dict and `timeout=10`. -/
def searchRequest (name : String) : SearchRequest :=
  { apiUrl := "https://en.wikipedia.org/w/api.php",
    params := [("action", .str "opensearch"),
               ("format", .str "json"),
               ("formatversion", .str "1"),
               ("namespace", .str "0"),
               ("limit", .nat 10),
               ("search", .str (searchTerm name))],
    timeout := 10 }

/-- Lookup of a query parameter by key in a request. -/
def lookupParam (r : SearchRequest) (k : String) : Option PVal :=
  (r.params.find? (fun p => p.1 = k)).map Prod.snd

/-- `series_url = search_response.json()[3][0]`: the first URL of the
fourth element of the JSON response array; `none` models the
`IndexError`/`TypeError` raised when the shape does not match. -/
def seriesUrl (resp : JVal) : Option String :=
  match resp with
  | .arr xs =>
    match xs[3]? with
    | some (JVal.arr ys) =>
      match ys[0]? with
      | some (JVal.str u) => some u
      | _ => none
    | _ => none
  | _ => none

/-- `seasons_numbers = [item.text for item in season_table.find_all('span', class_='nowrap')]`. -/
def seasonsNumbers (seasonTable : Node) : List String :=
  (seasonTable.findAll "span" "nowrap").map Node.textContent

/-- `season_episodes = soup.find_all('table', class_='wikiepisodetable')`. -/
def seasonEpisodes (soup : Node) : List Node :=
  soup.findAll "table" "wikiepisodetable"

/-- One entry of the result dict comprehension: the key
`f'Season {key}'` and the list of titles extracted from the `td.summary`
cells of one episode table; `none` models an `IndexError` escaping from
the inner list comprehension. -/
def buildEntry (key : String) (table : Node) : Option (String × List String) :=
  (traverseOpt extractTitle (table.findAll "td" "summary")).map
    (fun ts => ("Season " ++ key, ts))

/-- The scraping part of `search_series`, applied to the parsed page
(`soup`): find the `wikitable`, collect season labels and episode tables,
and build the result dict over `zip(seasons_numbers, season_episodes)`.
`none` models an uncaught exception (missing `wikitable` → `AttributeError`
on `None.find_all`; malformed summary cell → `IndexError`). -/
def extractSeries (soup : Node) : Option (List (String × List String)) :=
  match Node.findFirst "table" "wikitable" soup with
  | none => none
  | some seasonTable =>
    match traverseOpt (fun p => buildEntry p.1 p.2)
        ((seasonsNumbers seasonTable).zip (seasonEpisodes soup)) with
    | none => none
    | some entries => some (pyDict entries)

/-- The whole of `search_series`: build the request for `name`, read the
first URL of the fourth element of the search response, fetch that page
and scrape it. The HTTP layer is passed in: `respond` gives the JSON body
answering a search request, `fetchPage` the parsed document at a URL. -/
def search_series (name : String) (respond : SearchRequest → JVal)
    (fetchPage : String → Node) : Option (List (String × List String)) :=
  match seriesUrl (respond (searchRequest name)) with
  | none => none
  | some url => extractSeries (fetchPage url)

/-- The observable outcome of `setup_logging`. -/
inductive LogSetupOutcome where
  | coloredInstall : String → LogSetupOutcome
  | dictConfigured : LogSetupOutcome
  | exitError : Nat → String → LogSetupOutcome
  | ioFault : LogSetupOutcome
deriving DecidableEq

/-- The message printed when the logging config file is not valid JSON:
`f'File "{config_file}" is not valid json, cannot continue.'`. -/
def invalidJsonMessage (configFile : String) : String :=
  "File " ++ dq ++ configFile ++ dq ++ " is not valid json, cannot continue."

/-- `setup_logging(level, config_file)`: with a falsy (empty) config path,
install colored logging at `level.upper()`; otherwise open and read the
file (`readFile`, `none` modelling an uncaught `OSError`), parse it as
JSON (`validJson`), configure the logger on success, and on a
`ValueError` print the message and `raise SystemExit(1)`. -/
def setup_logging (level : String) (configFile : String)
    (readFile : String → Option String) (validJson : String → Bool) :
    LogSetupOutcome :=
  if configFile = "" then .coloredInstall level.toUpper
  else
    match readFile configFile with
    | none => .ioFault
    | some contents =>
      if validJson contents then .dictConfigured
      else .exitError 1 (invalidJsonMessage configFile)

/-! ### Fixtures for the end-to-end scenario -/

/-- The fixture search response
`["", [], [], ["https://en.wikipedia.org/wiki/List_of_Example_episodes"]]`. -/
def fixtureSearchResponse : JVal :=
  .arr [.str "", .arr [], .arr [],
        .arr [.str "https://en.wikipedia.org/wiki/List_of_Example_episodes"]]

/-- The fixture page: one `wikitable` with a single `span.nowrap` of text
`1`, and one `table.wikiepisodetable` with two `td.summary` cells whose
texts embed the titles `Welcome` and `Begin` in double quotes. -/
def fixturePage : Node :=
  .elem "html" [] [
    .elem "table" ["wikitable"] [
      .elem "span" ["nowrap"] [.text "1"]],
    .elem "table" ["wikiepisodetable"] [
      .elem "td" ["summary"] [.text ("Pilot " ++ dq ++ "Welcome" ++ dq)],
      .elem "td" ["summary"] [.text ("Premiere " ++ dq ++ "Begin" ++ dq)]]]

/-- The fixture fetch: the fixture page lives at the example URL, any
other URL yields an empty document. -/
def fixtureFetch (url : String) : Node :=
  if url = "https://en.wikipedia.org/wiki/List_of_Example_episodes" then
    fixturePage
  else Node.text ""

/-- Claim C1: on the fixture search response and fixture page,
`search_series` returns exactly the mapping
`Season 1 ↦ [Welcome, Begin]`. -/
theorem searchSeries_fixture_result :
    search_series "Example" (fun _ => fixtureSearchResponse) fixtureFetch =
      some [("Season 1", ["Welcome", "Begin"])] := by
  rfl

/-! ### Properties of `pySplit` -/

/-- `str.split` always returns at least one segment. -/
theorem pySplit_ne_nil (sep : Char) (s : List Char) : pySplit sep s ≠ [] := by
  induction s with
  | nil => simp [pySplit]
  | cons c rest ih =>
    by_cases hc : c = sep
    · simp [pySplit, hc]
    · cases h : pySplit sep rest with
      | nil => simp [pySplit, hc, h]
      | cons x xs => simp [pySplit, hc, h]

/-- Splitting a string that starts with a separator-free block `a`: the
block is glued onto the first segment of splitting the rest. -/
theorem pySplit_append_of_not_mem (sep : Char) (a s : List Char)
    (ha : sep ∉ a) :
    pySplit sep (a ++ s) =
      (a ++ (pySplit sep s).headD []) :: (pySplit sep s).tail := by
  induction a with
  | nil =>
    cases h : pySplit sep s with
    | nil => exact absurd h (pySplit_ne_nil sep s)
    | cons x xs => simp [h]
  | cons c a ih =>
    have hc : ¬ c = sep := by
      rintro rfl
      exact ha (List.mem_cons_self _ _)
    have ha2 : sep ∉ a := fun hm => ha (List.mem_cons_of_mem _ hm)
    rw [List.cons_append, pySplit, if_neg hc, ih ha2]
    simp

/-- Splitting a string without the separator yields that string alone. -/
theorem pySplit_of_not_mem (sep : Char) (s : List Char) (h : sep ∉ s) :
    pySplit sep s = [s] := by
  have := pySplit_append_of_not_mem sep s [] h
  simpa [pySplit] using this

/-- Splitting a string of the shape `a ++ sep ++ b ++ sep ++ c` with `a`
and `b` separator-free: the first three segments are `a`, `b` and the
head of splitting `c`. -/
theorem pySplit_two_seps (sep : Char) (a b c : List Char)
    (ha : sep ∉ a) (hb : sep ∉ b) :
    pySplit sep (a ++ sep :: (b ++ sep :: c)) =
      a :: b :: pySplit sep c := by
  rw [pySplit_append_of_not_mem sep a _ ha]
  rw [show pySplit sep (sep :: (b ++ sep :: c)) =
        [] :: pySplit sep (b ++ sep :: c) by simp [pySplit]]
  rw [pySplit_append_of_not_mem sep b _ hb]
  rw [show pySplit sep (sep :: c) = [] :: pySplit sep c by simp [pySplit]]
  simp

/-! ### Claim C2: summary cells with too few quote characters -/

/-- A summary cell whose text holds exactly one double quote. -/
def oneQuoteCell : Node :=
  .elem "td" ["summary"] [.text ("Pilot " ++ dq ++ "Welcome")]

/-- Claim C2, counterexample: a summary cell whose text contains exactly
one double-quote character — fewer than two — does not make extraction
fail; it silently yields the title `Welcome` (the text after the quote). -/
theorem extractTitle_oneQuote_counterexample :
    oneQuoteCell.textContent.toList.count quoteChar < 2 ∧
    extractTitle oneQuoteCell = some "Welcome" := by
  constructor
  · decide
  · rfl

/-- Claim C2, amended: for every summary cell whose text contains no
double-quote character at all, episode-title extraction fails (the split
yields a single segment and index 1 is out of range); it never silently
yields a title string. -/
theorem extractTitle_noQuote_fails (cell : Node)
    (h : quoteChar ∉ cell.textContent.toList) :
    extractTitle cell = none := by
  unfold extractTitle
  rw [pySplit_of_not_mem quoteChar _ h]
  rfl

/-- A summary cell whose text holds no double quote. -/
def noQuoteCell : Node :=
  .elem "td" ["summary"] [.text "Pilot Welcome"]

/-- Witness for the amended claim C2 at a concrete quote-free cell. -/
theorem extractTitle_noQuote_fails_witness :
    extractTitle noQuoteCell = none :=
  extractTitle_noQuote_fails noQuoteCell (by decide)

/-! ### Claim C5: title extraction on well-formed cells -/

/-- Claim C5: for every summary cell whose text contains at least two
double quotes — written as `a ++ quote ++ b ++ quote ++ c` with `a` and
`b` quote-free — the extracted episode title is segment 1 of splitting
the text on the double quote, which is exactly the text `b` between the
first pair of quotes. -/
theorem extractTitle_between_first_quotes (cell : Node) (a b c : List Char)
    (htext : cell.textContent.toList = a ++ quoteChar :: (b ++ quoteChar :: c))
    (ha : quoteChar ∉ a) (hb : quoteChar ∉ b) :
    extractTitle cell = some (String.mk b) := by
  unfold extractTitle
  rw [htext, pySplit_two_seps quoteChar a b c ha hb]
  simp

/-- Witness for claim C5 at the concrete cell text `Pilot "Welcome" x`. -/
theorem extractTitle_between_first_quotes_witness :
    extractTitle (.elem "td" ["summary"]
        [.text ("Pilot " ++ dq ++ "Welcome" ++ dq ++ " x")]) =
      some (String.mk "Welcome".toList) :=
  extractTitle_between_first_quotes _
    "Pilot ".toList "Welcome".toList " x".toList
    (by decide) (by decide) (by decide)

/-! ### Properties of `traverseOpt`, `pyDict` and `zip` -/

/-- A succeeding comprehension yields as many results as inputs. -/
theorem traverseOpt_length (f : α → Option β) (l : List α) (l2 : List β)
    (h : traverseOpt f l = some l2) : l2.length = l.length := by
  induction l generalizing l2 with
  | nil =>
    simp only [traverseOpt, Option.some_inj] at h
    subst h
    rfl
  | cons a rest ih =>
    cases hfa : f a with
    | none => simp [traverseOpt, hfa] at h
    | some b =>
      cases hrest : traverseOpt f rest with
      | none => simp [traverseOpt, hfa, hrest] at h
      | some bs =>
        simp only [traverseOpt, hfa, hrest, Option.some_inj] at h
        subst h
        simp [ih bs hrest]

/-- A comprehension whose body succeeds on every element succeeds. -/
theorem traverseOpt_isSome (f : α → Option β) (l : List α)
    (h : ∀ a ∈ l, (f a).isSome) : (traverseOpt f l).isSome := by
  induction l with
  | nil => simp [traverseOpt]
  | cons a rest ih =>
    obtain ⟨b, hb⟩ := Option.isSome_iff_exists.mp (h a (List.mem_cons_self a rest))
    obtain ⟨bs, hbs⟩ := Option.isSome_iff_exists.mp
      (ih (fun x hx => h x (List.mem_cons_of_mem a hx)))
    simp [traverseOpt, hb, hbs]

/-- In a succeeding comprehension, the result at position `i` is the body
applied to the input at position `i`. -/
theorem traverseOpt_getD (f : α → Option β) (l : List α) (l2 : List β)
    (h : traverseOpt f l = some l2) (i : Nat) (hi : i < l.length)
    (dA : α) (dB : β) :
    f (l.getD i dA) = some (l2.getD i dB) := by
  induction l generalizing l2 i with
  | nil => simp at hi
  | cons a rest ih =>
    cases hfa : f a with
    | none => simp [traverseOpt, hfa] at h
    | some b =>
      cases hrest : traverseOpt f rest with
      | none => simp [traverseOpt, hfa, hrest] at h
      | some bs =>
        simp only [traverseOpt, hfa, hrest, Option.some_inj] at h
        subst h
        cases i with
        | zero => simpa using hfa
        | succ j =>
          simp only [List.getD_cons_succ]
          exact ih bs hrest j (by simpa using hi)

/-- `getD` on a zip of lists, inside bounds, pairs the two `getD`s. -/
theorem zip_getD (l1 : List α) (l2 : List β) (d1 : α) (d2 : β) (i : Nat)
    (h1 : i < l1.length) (h2 : i < l2.length) :
    (l1.zip l2).getD i (d1, d2) = (l1.getD i d1, l2.getD i d2) := by
  induction l1 generalizing l2 i with
  | nil => simp at h1
  | cons a r1 ih =>
    cases l2 with
    | nil => simp at h2
    | cons b r2 =>
      cases i with
      | zero => simp [List.zip_cons_cons]
      | succ j =>
        simp only [List.zip_cons_cons, List.getD_cons_succ]
        exact ih r2 j (by simpa using h1) (by simpa using h2)

/-- Zipping only looks at the first `min` positions of either list. -/
theorem zip_eq_zip_take_min (l1 : List α) (l2 : List β) :
    l1.zip l2 = (l1.take (min l1.length l2.length)).zip
                (l2.take (min l1.length l2.length)) := by
  induction l1 generalizing l2 with
  | nil => simp
  | cons a r1 ih =>
    cases l2 with
    | nil => simp
    | cons b r2 =>
      simp only [List.length_cons, Nat.succ_min_succ, List.take_succ_cons,
        List.zip_cons_cons]
      rw [← ih r2]

/-- Inserting a fresh key into a Python dict appends it. -/
theorem pyDictInsert_of_not_mem (d : List (String × α)) (k : String) (v : α)
    (h : k ∉ d.map Prod.fst) : pyDictInsert d k v = d ++ [(k, v)] := by
  have hc : ¬ (d.any (fun p => p.1 = k) = true) := by
    simp only [List.any_eq_true, decide_eq_true_eq]
    rintro ⟨p, hp, he⟩
    exact h (he ▸ List.mem_map_of_mem Prod.fst hp)
  simp [pyDictInsert, hc]

/-- Folding dict insertion over pairs with fresh, pairwise-distinct keys
appends them all in order. -/
theorem pyDict_loop_of_nodup (l : List (String × α)) :
    ∀ acc : List (String × α), (l.map Prod.fst).Nodup →
    (∀ k ∈ l.map Prod.fst, k ∉ acc.map Prod.fst) →
    l.foldl (fun d p => pyDictInsert d p.1 p.2) acc = acc ++ l := by
  induction l with
  | nil => intro acc _ _; simp
  | cons p rest ih =>
    intro acc hnd hdisj
    have hp1 : p.1 ∉ rest.map Prod.fst := by
      have := hnd
      simp only [List.map_cons, List.nodup_cons] at this
      exact this.1
    have hnd2 : (rest.map Prod.fst).Nodup := by
      simp only [List.map_cons, List.nodup_cons] at hnd
      exact hnd.2
    simp only [List.foldl_cons]
    rw [pyDictInsert_of_not_mem acc p.1 p.2 (hdisj p.1 (by simp))]
    rw [ih (acc ++ [(p.1, p.2)]) hnd2 ?_]
    · simp
    · intro k hk
      simp only [List.map_append, List.map_cons, List.map_nil,
        List.mem_append, List.mem_singleton]
      rintro (hka | hkp)
      · exact hdisj k (List.mem_cons_of_mem _ hk) hka
      · exact hp1 (hkp ▸ hk)

/-- A Python dict built from pairs with pairwise-distinct keys is exactly
that list of pairs. -/
theorem pyDict_of_nodup (l : List (String × α))
    (h : (l.map Prod.fst).Nodup) : pyDict l = l := by
  have := pyDict_loop_of_nodup l [] h (by simp)
  simpa [pyDict] using this

/-! ### Properties of `buildEntry` and `extractSeries` -/

/-- A successful entry's key is `Season ` followed by the season label. -/
theorem buildEntry_fst (k : String) (t : Node) (e : String × List String)
    (h : buildEntry k t = some e) : e.1 = "Season " ++ k := by
  cases ht : traverseOpt extractTitle (t.findAll "td" "summary") with
  | none => simp [buildEntry, ht] at h
  | some ts =>
    simp only [buildEntry, ht, Option.map_some', Option.some_inj] at h
    subst h
    rfl

/-- A successful entry holds one title per `td.summary` cell of its
episode table. -/
theorem buildEntry_snd_length (k : String) (t : Node) (e : String × List String)
    (h : buildEntry k t = some e) :
    e.2.length = (t.findAll "td" "summary").length := by
  cases ht : traverseOpt extractTitle (t.findAll "td" "summary") with
  | none => simp [buildEntry, ht] at h
  | some ts =>
    simp only [buildEntry, ht, Option.map_some', Option.some_inj] at h
    subst h
    exact traverseOpt_length extractTitle _ ts ht

/-- An episode table whose every summary cell extracts yields an entry. -/
theorem buildEntry_isSome (k : String) (t : Node)
    (h : ∀ c ∈ t.findAll "td" "summary", (extractTitle c).isSome) :
    (buildEntry k t).isSome := by
  obtain ⟨ts, hts⟩ := Option.isSome_iff_exists.mp
    (traverseOpt_isSome extractTitle _ h)
  simp [buildEntry, hts]

/-- The keys of the entry list are `Season ` plus the labels, in order. -/
theorem traverse_buildEntry_keys (pairs : List (String × Node))
    (entries : List (String × List String))
    (h : traverseOpt (fun p => buildEntry p.1 p.2) pairs = some entries) :
    entries.map Prod.fst = pairs.map (fun p => "Season " ++ p.1) := by
  induction pairs generalizing entries with
  | nil =>
    simp only [traverseOpt, Option.some_inj] at h
    subst h
    rfl
  | cons p rest ih =>
    cases hp : buildEntry p.1 p.2 with
    | none => simp [traverseOpt, hp] at h
    | some e =>
      cases hrest : traverseOpt (fun p => buildEntry p.1 p.2) rest with
      | none => simp [traverseOpt, hp, hrest] at h
      | some es =>
        simp only [traverseOpt, hp, hrest, Option.some_inj] at h
        subst h
        simp [buildEntry_fst _ _ _ hp, ih es hrest]

/-- Prefixing with `Season ` is injective: distinct labels give distinct
dict keys. -/
theorem seasonKey_injective :
    Function.Injective (fun l : String => "Season " ++ l) := by
  intro a b h
  apply String.ext
  have h2 := congrArg String.data h
  simp only [String.data_append] at h2
  exact List.append_cancel_left h2

/-- Unfolding `extractSeries` on a page whose `wikitable` is found and
whose entry comprehension succeeds. -/
theorem extractSeries_eq_pyDict (soup st : Node)
    (entries : List (String × List String))
    (hst : Node.findFirst "table" "wikitable" soup = some st)
    (htrav : traverseOpt (fun p => buildEntry p.1 p.2)
        ((seasonsNumbers st).zip (seasonEpisodes soup)) = some entries) :
    extractSeries soup = some (pyDict entries) := by
  simp only [extractSeries, hst, htrav]

/-- Bool-level check that every summary cell of every listed episode
table extracts a title, evaluable on concrete fixtures. -/
def allCellsOk (tables : List Node) : Bool :=
  tables.all (fun t => (t.findAll "td" "summary").all
    (fun c => (extractTitle c).isSome))

/-- Unfolding `allCellsOk` into its universally quantified form. -/
theorem allCellsOk_spec (tables : List Node) (h : allCellsOk tables = true) :
    ∀ t ∈ tables, ∀ c ∈ t.findAll "td" "summary", (extractTitle c).isSome := by
  intro t ht c hc
  have h1 := List.all_eq_true.mp h t ht
  exact List.all_eq_true.mp h1 c hc

/-! ### Claim C3: entry count and value lengths -/

/-- A page whose `wikitable` holds two `span.nowrap` labels with the same
text `1`, next to two episode tables. -/
def dupLabelPage : Node :=
  .elem "html" [] [
    .elem "table" ["wikitable"] [
      .elem "span" ["nowrap"] [.text "1"],
      .elem "span" ["nowrap"] [.text "1"]],
    .elem "table" ["wikiepisodetable"] [
      .elem "td" ["summary"] [.text ("A " ++ dq ++ "X" ++ dq)]],
    .elem "table" ["wikiepisodetable"] [
      .elem "td" ["summary"] [.text ("B " ++ dq ++ "Y" ++ dq)]]]

/-- Claim C3, counterexample: a page with N = 2 season labels and 2
episode tables for which the extractor returns a mapping with a single
entry, not 2 — the duplicate label `1` makes the dict comprehension
overwrite the first season's entry with the second season's titles. -/
theorem extractSeries_dupLabels_counterexample :
    (∃ st, Node.findFirst "table" "wikitable" dupLabelPage = some st ∧
      (seasonsNumbers st).length = 2) ∧
    (seasonEpisodes dupLabelPage).length = 2 ∧
    extractSeries dupLabelPage = some [("Season 1", ["Y"])] := by
  refine ⟨⟨.elem "table" ["wikitable"] [
      .elem "span" ["nowrap"] [.text "1"],
      .elem "span" ["nowrap"] [.text "1"]], rfl, rfl⟩, rfl, ?_⟩
  rfl

/-- Claim C3, amended: for every page with N season-label elements and N
episode tables, provided the labels are pairwise distinct and every
summary cell's text contains a double quote (so that extraction does not
fail), the extractor returns a mapping with exactly N entries; the entry
at position `i` has key `Season ` followed by label `i` and a value whose
length is the number of `td.summary` cells of episode table `i`. -/
theorem extractSeries_count_and_lengths (soup st : Node)
    (hst : Node.findFirst "table" "wikitable" soup = some st)
    (hlen : (seasonsNumbers st).length = (seasonEpisodes soup).length)
    (hnodup : (seasonsNumbers st).Nodup)
    (hok : ∀ t ∈ seasonEpisodes soup, ∀ c ∈ t.findAll "td" "summary",
      (extractTitle c).isSome) :
    ∃ m, extractSeries soup = some m ∧
      m.length = (seasonsNumbers st).length ∧
      ∀ i, i < m.length →
        (m.getD i ("", [])).1 = "Season " ++ (seasonsNumbers st).getD i "" ∧
        (m.getD i ("", [])).2.length =
          (((seasonEpisodes soup).getD i (Node.text "")).findAll
            "td" "summary").length := by
  have hsome : (traverseOpt (fun p => buildEntry p.1 p.2)
      ((seasonsNumbers st).zip (seasonEpisodes soup))).isSome := by
    apply traverseOpt_isSome
    intro p hp
    exact buildEntry_isSome p.1 p.2 (hok p.2 (List.of_mem_zip hp).2)
  obtain ⟨entries, hentries⟩ := Option.isSome_iff_exists.mp hsome
  have hplen : ((seasonsNumbers st).zip (seasonEpisodes soup)).length
      = (seasonsNumbers st).length := by
    rw [List.length_zip, hlen, Nat.min_self]
  have helen : entries.length = (seasonsNumbers st).length := by
    rw [traverseOpt_length _ _ _ hentries, hplen]
  have hfst : ((seasonsNumbers st).zip (seasonEpisodes soup)).map Prod.fst
      = seasonsNumbers st :=
    List.map_fst_zip _ _ (le_of_eq hlen)
  have hnodupkeys : (entries.map Prod.fst).Nodup := by
    rw [traverse_buildEntry_keys _ entries hentries]
    have hmap : ((seasonsNumbers st).zip (seasonEpisodes soup)).map
          (fun p => "Season " ++ p.1)
        = (((seasonsNumbers st).zip (seasonEpisodes soup)).map Prod.fst).map
          (fun k => "Season " ++ k) := by
      rw [List.map_map]
      rfl
    rw [hmap, hfst]
    exact hnodup.map seasonKey_injective
  refine ⟨entries, ?_, helen, ?_⟩
  · rw [extractSeries_eq_pyDict soup st entries hst hentries,
      pyDict_of_nodup entries hnodupkeys]
  · intro i hi
    have hiL : i < (seasonsNumbers st).length := helen ▸ hi
    have hiT : i < (seasonEpisodes soup).length := hlen ▸ hiL
    have hip : i < ((seasonsNumbers st).zip (seasonEpisodes soup)).length := by
      rw [hplen]
      exact hiL
    have hgd := traverseOpt_getD _ _ entries hentries i hip
      ("", Node.text "") ("", [])
    rw [zip_getD _ _ "" (Node.text "") i hiL hiT] at hgd
    exact ⟨buildEntry_fst _ _ _ hgd, buildEntry_snd_length _ _ _ hgd⟩

/-- A page with two distinct season labels and two episode tables, of
one and two summary cells. -/
def twoSeasonPage : Node :=
  .elem "html" [] [
    .elem "table" ["wikitable"] [
      .elem "span" ["nowrap"] [.text "1"],
      .elem "span" ["nowrap"] [.text "2"]],
    .elem "table" ["wikiepisodetable"] [
      .elem "td" ["summary"] [.text ("Pilot " ++ dq ++ "Welcome" ++ dq)]],
    .elem "table" ["wikiepisodetable"] [
      .elem "td" ["summary"] [.text ("Premiere " ++ dq ++ "Begin" ++ dq)],
      .elem "td" ["summary"] [.text ("Finale " ++ dq ++ "End" ++ dq)]]]

/-- The `wikitable` of `twoSeasonPage`. -/
def twoSeasonTable : Node :=
  .elem "table" ["wikitable"] [
    .elem "span" ["nowrap"] [.text "1"],
    .elem "span" ["nowrap"] [.text "2"]]

/-- Witness for the amended claim C3 on a concrete two-season page. -/
theorem extractSeries_count_and_lengths_witness :
    ∃ m, extractSeries twoSeasonPage = some m ∧
      m.length = (seasonsNumbers twoSeasonTable).length ∧
      ∀ i, i < m.length →
        (m.getD i ("", [])).1 =
          "Season " ++ (seasonsNumbers twoSeasonTable).getD i "" ∧
        (m.getD i ("", [])).2.length =
          (((seasonEpisodes twoSeasonPage).getD i (Node.text "")).findAll
            "td" "summary").length :=
  extractSeries_count_and_lengths twoSeasonPage twoSeasonTable rfl rfl
    (by decide) (allCellsOk_spec _ (by rfl))

/-! ### Claim C4: positional pairing truncates to the shorter list -/

/-- Claim C4: when the list of season labels and the list of episode
tables have different lengths, the pairing is positional and covers
exactly the first `min` positions: the entry comprehension runs precisely
over the zip of the two truncated lists, produces `min` entries (the
longer list's extra elements are silently dropped), and extraction
returns the resulting dict without raising any error for the mismatch
(provided each summary cell of the tables actually paired extracts). -/
theorem extractSeries_truncates_to_min (soup st : Node)
    (hst : Node.findFirst "table" "wikitable" soup = some st)
    (hne : (seasonsNumbers st).length ≠ (seasonEpisodes soup).length)
    (hok : ∀ t ∈ (seasonEpisodes soup).take
        (min (seasonsNumbers st).length (seasonEpisodes soup).length),
      ∀ c ∈ t.findAll "td" "summary", (extractTitle c).isSome) :
    ∃ entries,
      traverseOpt (fun p => buildEntry p.1 p.2)
        (((seasonsNumbers st).take
            (min (seasonsNumbers st).length (seasonEpisodes soup).length)).zip
         ((seasonEpisodes soup).take
            (min (seasonsNumbers st).length (seasonEpisodes soup).length)))
        = some entries ∧
      entries.length
        = min (seasonsNumbers st).length (seasonEpisodes soup).length ∧
      extractSeries soup = some (pyDict entries) := by
  have hzip := zip_eq_zip_take_min (seasonsNumbers st) (seasonEpisodes soup)
  have hsome : (traverseOpt (fun p => buildEntry p.1 p.2)
      (((seasonsNumbers st).take
          (min (seasonsNumbers st).length (seasonEpisodes soup).length)).zip
       ((seasonEpisodes soup).take
          (min (seasonsNumbers st).length (seasonEpisodes soup).length)))).isSome := by
    apply traverseOpt_isSome
    intro p hp
    exact buildEntry_isSome p.1 p.2 (hok p.2 (List.of_mem_zip hp).2)
  obtain ⟨entries, hentries⟩ := Option.isSome_iff_exists.mp hsome
  refine ⟨entries, hentries, ?_, ?_⟩
  · rw [traverseOpt_length _ _ _ hentries, List.length_zip,
      List.length_take, List.length_take]
    omega
  · apply extractSeries_eq_pyDict soup st entries hst
    rw [hzip]
    exact hentries

/-- A page with one season label but two episode tables; the second table
would even make title extraction fail, but it is never paired. -/
def mismatchPage : Node :=
  .elem "html" [] [
    .elem "table" ["wikitable"] [
      .elem "span" ["nowrap"] [.text "1"]],
    .elem "table" ["wikiepisodetable"] [
      .elem "td" ["summary"] [.text ("Pilot " ++ dq ++ "Welcome" ++ dq)]],
    .elem "table" ["wikiepisodetable"] [
      .elem "td" ["summary"] [.text "no quotes at all"]]]

/-- The `wikitable` of `mismatchPage`. -/
def mismatchTable : Node :=
  .elem "table" ["wikitable"] [.elem "span" ["nowrap"] [.text "1"]]

/-- Witness for claim C4 on a page with one label and two tables. -/
theorem extractSeries_truncates_to_min_witness :
    ∃ entries,
      traverseOpt (fun p => buildEntry p.1 p.2)
        (((seasonsNumbers mismatchTable).take
            (min (seasonsNumbers mismatchTable).length
              (seasonEpisodes mismatchPage).length)).zip
         ((seasonEpisodes mismatchPage).take
            (min (seasonsNumbers mismatchTable).length
              (seasonEpisodes mismatchPage).length)))
        = some entries ∧
      entries.length
        = min (seasonsNumbers mismatchTable).length
            (seasonEpisodes mismatchPage).length ∧
      extractSeries mismatchPage = some (pyDict entries) :=
  extractSeries_truncates_to_min mismatchPage mismatchTable rfl
    (by decide) (allCellsOk_spec _ (by rfl))

/-! ### Claim C7: zero season labels -/

/-- Claim C7: a page whose `wikitable` exists but contains no
`span.nowrap` element yields the empty mapping: the zip with the episode
tables is empty, so no pairing — bounded or not — ever happens and no
fault is raised. -/
theorem extractSeries_noLabels_empty (soup st : Node)
    (hst : Node.findFirst "table" "wikitable" soup = some st)
    (hzero : st.findAll "span" "nowrap" = []) :
    extractSeries soup = some [] := by
  have hsn : seasonsNumbers st = [] := by
    simp [seasonsNumbers, hzero]
  simp only [extractSeries, hst, hsn]
  rfl

/-- A page with a `wikitable` without season labels; its episode table
even holds a quote-free summary cell, which is never reached. -/
def noLabelPage : Node :=
  .elem "html" [] [
    .elem "table" ["wikitable"] [.elem "td" [] [.text "x"]],
    .elem "table" ["wikiepisodetable"] [
      .elem "td" ["summary"] [.text "no quotes here"]]]

/-- Witness for claim C7 on a concrete label-free page. -/
theorem extractSeries_noLabels_empty_witness :
    extractSeries noLabelPage = some [] :=
  extractSeries_noLabels_empty noLabelPage
    (.elem "table" ["wikitable"] [.elem "td" [] [.text "x"]]) rfl rfl

/-! ### Claim C8: missing `wikitable` -/

/-- Claim C8: on a page without any table of class `wikitable`,
extraction fails — `soup.find` returns `None` and the attempt to search
for season labels within it raises — and no mapping is returned. -/
theorem extractSeries_noWikitable_fault (soup : Node)
    (h : Node.findFirst "table" "wikitable" soup = none) :
    extractSeries soup = none := by
  simp only [extractSeries, h]

/-- A page whose only table is an episode table, with no `wikitable`. -/
def plainPage : Node :=
  .elem "html" [] [
    .elem "table" ["wikiepisodetable"] [
      .elem "td" ["summary"] [.text ("Pilot " ++ dq ++ "Welcome" ++ dq)]]]

/-- Witness for claim C8 on a concrete page without a `wikitable`. -/
theorem extractSeries_noWikitable_fault_witness :
    extractSeries plainPage = none :=
  extractSeries_noWikitable_fault plainPage rfl

/-! ### Claim C6: the search request and the resolved URL -/

/-- Claim C6: for every non-empty series name, the request built by
`search_series` carries the search term `List_of_<name>_episodes` and the
parameters `action=opensearch`, `format=json`, `namespace=0`, `limit=10`;
and on a search response whose fourth element is an array of URLs,
`search_series` goes on to fetch exactly the first of those URLs. -/
theorem searchRequest_params_and_url (name : String) (hname : name ≠ "") :
    lookupParam (searchRequest name) "search"
      = some (.str ("List_of_" ++ name ++ "_episodes")) ∧
    lookupParam (searchRequest name) "action" = some (.str "opensearch") ∧
    lookupParam (searchRequest name) "format" = some (.str "json") ∧
    lookupParam (searchRequest name) "namespace" = some (.str "0") ∧
    lookupParam (searchRequest name) "limit" = some (.nat 10) ∧
    ∀ (x0 x1 x2 : JVal) (u : String) (rest : List JVal)
      (respond : SearchRequest → JVal) (fetchPage : String → Node),
      respond (searchRequest name) = .arr [x0, x1, x2, .arr (.str u :: rest)] →
      search_series name respond fetchPage = extractSeries (fetchPage u) := by
  refine ⟨rfl, rfl, rfl, rfl, rfl, ?_⟩
  intro x0 x1 x2 u rest respond fetchPage hresp
  simp only [search_series, hresp, seriesUrl, List.getElem?_cons_succ,
    List.getElem?_cons_zero]

/-- Witness for claim C6 at the series name `Example` and the fixture
search response. -/
theorem searchRequest_params_and_url_witness :
    lookupParam (searchRequest "Example") "search"
      = some (.str ("List_of_" ++ "Example" ++ "_episodes")) ∧
    lookupParam (searchRequest "Example") "action" = some (.str "opensearch") ∧
    lookupParam (searchRequest "Example") "format" = some (.str "json") ∧
    lookupParam (searchRequest "Example") "namespace" = some (.str "0") ∧
    lookupParam (searchRequest "Example") "limit" = some (.nat 10) ∧
    ∀ (x0 x1 x2 : JVal) (u : String) (rest : List JVal)
      (respond : SearchRequest → JVal) (fetchPage : String → Node),
      respond (searchRequest "Example")
        = .arr [x0, x1, x2, .arr (.str u :: rest)] →
      search_series "Example" respond fetchPage
        = extractSeries (fetchPage u) :=
  searchRequest_params_and_url "Example" (by decide)

/-! ### Claims C9 and C10: `setup_logging` -/

/-- Claim C9: when a logging-config path is supplied and the file reads
as a string that is not valid JSON, `setup_logging` prints the
user-facing message and exits with status 1; and conversely an
exit-with-error outcome of `setup_logging` only ever arises that way,
always with code 1 and that message — it is the one deliberately handled
error condition. -/
theorem setupLogging_invalidJson_exit1 (level configFile : String)
    (readFile : String → Option String) (validJson : String → Bool) :
    (∀ contents, configFile ≠ "" → readFile configFile = some contents →
      validJson contents = false →
      setup_logging level configFile readFile validJson
        = .exitError 1 (invalidJsonMessage configFile)) ∧
    (∀ code msg,
      setup_logging level configFile readFile validJson = .exitError code msg →
      code = 1 ∧ msg = invalidJsonMessage configFile ∧ configFile ≠ "" ∧
      ∃ contents, readFile configFile = some contents ∧
        validJson contents = false) := by
  constructor
  · intro contents hne hread hbad
    simp only [setup_logging, if_neg hne, hread, hbad]
    rfl
  · intro code msg h
    by_cases hcf : configFile = ""
    · simp [setup_logging, hcf] at h
    · cases hread : readFile configFile with
      | none => simp [setup_logging, hcf, hread] at h
      | some contents =>
        cases hv : validJson contents with
        | true => simp [setup_logging, hcf, hread, hv] at h
        | false =>
          simp only [setup_logging, if_neg hcf, hread, hv,
            Bool.false_eq_true, if_false] at h
          cases h
          exact ⟨rfl, rfl, hcf, contents, rfl, hv⟩

/-- Witness for claim C9: a concrete config path whose contents do not
parse as JSON makes `setup_logging` exit with code 1 and the message. -/
theorem setupLogging_invalidJson_exit1_witness :
    setup_logging "info" "logging.json" (fun _ => some "not json")
        (fun _ => false)
      = .exitError 1 (invalidJsonMessage "logging.json") :=
  (setupLogging_invalidJson_exit1 "info" "logging.json"
      (fun _ => some "not json") (fun _ => false)).1
    "not json" (by decide) rfl rfl

/-- Claim C10: when a logging-config path is supplied but the file cannot
be opened or read, `setup_logging` ends in the unhandled I/O fault — the
`except ValueError` clause does not catch it — which is a different
outcome from every deliberate exit-with-status termination. -/
theorem setupLogging_missingFile_fault (level configFile : String)
    (readFile : String → Option String) (validJson : String → Bool)
    (hne : configFile ≠ "") (hmissing : readFile configFile = none) :
    setup_logging level configFile readFile validJson = .ioFault ∧
    ∀ code msg, LogSetupOutcome.ioFault ≠ .exitError code msg := by
  constructor
  · simp only [setup_logging, if_neg hne, hmissing]
  · intro code msg h
    cases h

/-- Witness for claim C10: a concrete config path that cannot be read. -/
theorem setupLogging_missingFile_fault_witness :
    setup_logging "info" "absent.json" (fun _ => none) (fun _ => true)
        = .ioFault ∧
    ∀ code msg, LogSetupOutcome.ioFault ≠ .exitError code msg :=
  setupLogging_missingFile_fault "info" "absent.json" (fun _ => none)
    (fun _ => true) (by decide) rfl
